import Mathlib

/-!
Shallow embedding of the `renderkit` rendering engine (src/css.rs, src/style.rs,
src/layout.rs, src/painting.rs) and proofs about its style cascade, block
layout and painting algorithms.

Modelling conventions:
* Rust `f32` values are modelled as exact rationals `ℚ` (the algorithms use
  only +, -, comparison and division by 2, and all claims are about exact
  values).
* Rust `HashMap` maps are modelled as association lists where `insert` conses
  in front and `get` is first-match lookup (`List.lookup`), which gives the
  same observable get/insert behaviour.
* Rust `panic!` is modelled by returning `none` from an `Option`-valued
  function.
* `u8` colour components are modelled as `ℕ` (their arithmetic is never used).
-/

namespace RenderKit

/-! ## CSS data model (src/css.rs) -/

/-- CSS length units (src/css.rs `Unit`); only `Px` exists. -/
inductive CSSUnit where
  | px
deriving DecidableEq, Repr

/-- RGBA colour, components 0–255 (src/css.rs `Color`). -/
structure Color where
  r : ℕ
  g : ℕ
  b : ℕ
  a : ℕ
deriving DecidableEq, Repr

/-- CSS value (src/css.rs `Value`). -/
inductive Value where
  | keyword (s : String)
  | length (v : ℚ) (u : CSSUnit)
  | colorValue (c : Color)
deriving DecidableEq, Repr

/-- Pixel conversion (src/css.rs `Value::to_px`): `Length(f, Px) => f`,
everything else 0. -/
def Value.to_px : Value → ℚ
  | .length f .px => f
  | _ => 0

/-- Selector specificity triple (id-count, class-count, tag-count)
(src/css.rs `Specificity = (usize, usize, usize)`). -/
abbrev Specificity := ℕ × ℕ × ℕ

/-- Simple CSS selector (src/css.rs `SimpleSelector`).  The Rust field
`class` is a Lean keyword, so it is named `classList` here. -/
structure SimpleSelector where
  tag_name : Option String
  id : Option String
  classList : List String
deriving DecidableEq, Repr

/-- CSS selector (src/css.rs `Selector`); only the `Simple` variant exists. -/
inductive Selector where
  | simple (s : SimpleSelector)
deriving DecidableEq, Repr

/-- Specificity of a selector (src/css.rs `Selector::specificity`):
(number of ids, number of classes, number of tag names). -/
def Selector.specificity : Selector → Specificity
  | .simple s => (if s.id.isSome then 1 else 0, s.classList.length,
      if s.tag_name.isSome then 1 else 0)

/-- CSS declaration (src/css.rs `Declaration`): property name and value. -/
structure Declaration where
  name : String
  value : Value
deriving DecidableEq, Repr

/-- CSS rule (src/css.rs `Rule`): selectors and declarations. -/
structure Rule where
  selectors : List Selector
  declarations : List Declaration
deriving DecidableEq, Repr

/-- CSS stylesheet (src/css.rs `Stylesheet`): an ordered list of rules. -/
structure Stylesheet where
  rules : List Rule
deriving DecidableEq, Repr

/-- Lexicographic comparison of specificity triples, as produced by Rust's
derived `Ord` for `(usize, usize, usize)` (used by `sort_by` with `a.cmp(&b)`
in src/style.rs and by the selector sort in src/css.rs). -/
def specCmp (a b : Specificity) : Ordering :=
  if a.1 < b.1 then .lt else if b.1 < a.1 then .gt
  else if a.2.1 < b.2.1 then .lt else if b.2.1 < a.2.1 then .gt
  else if a.2.2 < b.2.2 then .lt else if b.2.2 < a.2.2 then .gt
  else .eq

/-- Strict "less" in the specificity order. -/
def specLt (a b : Specificity) : Bool := specCmp a b == .lt

/-- Non-strict "less or equal" in the specificity order. -/
def specLe (a b : Specificity) : Bool := !(specCmp a b == .gt)

/-! ## DOM element data (src/dom.rs) -/

/-- Element data (src/dom.rs `ElementData`): tag name and attribute map.
The attribute `HashMap` is modelled as an association list with first-match
lookup. -/
structure ElementData where
  tag_name : String
  attrs : List (String × String)
deriving DecidableEq, Repr

/-- Attribute lookup, modelling `HashMap::get`. -/
def ElementData.getAttr (e : ElementData) (key : String) : Option String :=
  List.lookup key e.attrs

/-- Id accessor (src/style.rs `ElementData::id`): the `id` attribute. -/
def ElementData.id (e : ElementData) : Option String :=
  e.getAttr "id"

/-- Class accessor (src/style.rs `ElementData::classes`): the `class`
attribute split on the space character (Rust `classlist.split(' ')`, which
keeps empty substrings), empty when absent.  The split is performed on the
character list, which yields exactly the substrings between occurrences of
`' '`.  The Rust `HashSet` result is only ever used for membership tests, so
a list of the tokens is an equivalent model. -/
def ElementData.classes (e : ElementData) : List String :=
  match e.getAttr "class" with
  | some classlist => (classlist.toList.splitOn ' ').map (fun l => String.mk l)
  | none => []

/-! ## Selector matching and the cascade (src/style.rs) -/

/-- Simple-selector matching (src/style.rs `matches_simple_selector`):
fail if a present tag name differs, fail if a present id differs, fail if
some selector class is missing from the element's classes; otherwise match. -/
def matches_simple_selector (elem : ElementData) (sel : SimpleSelector) : Bool :=
  if sel.tag_name.any (fun name => elem.tag_name != name) then false
  else if sel.id.any (fun i => elem.id != some i) then false
  else if sel.classList.any (fun c => !(elem.classes.contains c)) then false
  else true

/-- Selector matching (src/style.rs `matches`). -/
def selMatches (elem : ElementData) (sel : Selector) : Bool :=
  match sel with
  | .simple s => matches_simple_selector elem s

/-- Matched rule: specificity paired with the rule
(src/style.rs `MatchedRule`). -/
abbrev MatchedRule := Specificity × Rule

/-- Rule matching (src/style.rs `match_rule`): find the first selector of the
rule that matches the element and pair its specificity with the rule. -/
def match_rule (elem : ElementData) (rule : Rule) : Option MatchedRule :=
  (rule.selectors.find? (fun sel => selMatches elem sel)).map
    (fun sel => (sel.specificity, rule))

/-- All matching rules of a stylesheet (src/style.rs `matching_rules`). -/
def matching_rules (elem : ElementData) (stylesheet : Stylesheet) :
    List MatchedRule :=
  stylesheet.rules.filterMap (fun rule => match_rule elem rule)

/-- Insert into a list sorted ascending by specificity, going after all
entries that are not strictly greater (so insertion of later elements behind
equal earlier ones: a stable sort). -/
def insertBySpec (x : MatchedRule) : List MatchedRule → List MatchedRule
  | [] => [x]
  | y :: ys => if specLt x.1 y.1 then x :: y :: ys else y :: insertBySpec x ys

/-- Stable ascending sort by specificity, modelling Rust's stable
`rules.sort_by(|&(a, _), &(b, _)| a.cmp(&b))` in src/style.rs. -/
def sortBySpec (l : List MatchedRule) : List MatchedRule :=
  l.foldl (fun acc x => insertBySpec x acc) []

/-- Property map (src/style.rs `PropertyMap`), modelled as an association
list: insertion conses in front and lookup is first-match. -/
abbrev PropertyMap := List (String × Value)

/-- Apply a rule's declarations to a property map in order; each
`values.insert(name, value)` is modelled by consing in front, so a later
declaration shadows an earlier one for the same name. -/
def applyDeclarations (values : PropertyMap) (ds : List Declaration) :
    PropertyMap :=
  ds.foldl (fun m d => (d.name, d.value) :: m) values

/-- Specified values of an element (src/style.rs `specified_values`): collect
matching rules, stable-sort ascending by specificity, then apply all
declarations in that order (later writes win). -/
def specified_values (elem : ElementData) (stylesheet : Stylesheet) :
    PropertyMap :=
  (sortBySpec (matching_rules elem stylesheet)).foldl
    (fun values sr => applyDeclarations values sr.2.declarations) []

/-- Lookup in a property map, modelling `HashMap::get` after the inserts. -/
def PropertyMap.get (m : PropertyMap) (name : String) : Option Value :=
  List.lookup name m

/-! ## Styled nodes (src/style.rs `StyledNode`) -/

/-- Display mode (src/style.rs `Display`). -/
inductive Display where
  | inline
  | block
  | none
deriving DecidableEq, Repr

/-- Styled node (src/style.rs `StyledNode`): resolved property map and styled
children.  The borrowed back-reference to the DOM node is omitted: no code
reached by the claims ever reads it. -/
inductive StyledNode where
  | mk (specified : PropertyMap) (children : List StyledNode)

/-- Property map of a styled node. -/
def StyledNode.specified : StyledNode → PropertyMap
  | .mk sv _ => sv

/-- Children of a styled node. -/
def StyledNode.children : StyledNode → List StyledNode
  | .mk _ cs => cs

/-- Property accessor (src/style.rs `StyledNode::value`). -/
def StyledNode.value (s : StyledNode) (name : String) : Option Value :=
  s.specified.get name

/-- Shorthand-fallback lookup (src/style.rs `StyledNode::lookup`):
primary property, else fallback property, else the default. -/
def StyledNode.lookup (s : StyledNode) (primary fallback : String)
    (default : Value) : Value :=
  ((s.value primary).or (s.value fallback)).getD default

/-- Display accessor (src/style.rs `StyledNode::display`): keyword "block" is
Block, "none" is None, anything else (other keyword, other value, or unset)
is Inline. -/
def StyledNode.display (s : StyledNode) : Display :=
  match s.value "display" with
  | some (.keyword k) =>
      if k = "block" then .block else if k = "none" then .none else .inline
  | _ => .inline

/-! ## Layout data model (src/layout.rs) -/

/-- Rectangle with position and size (src/layout.rs `Rect`). -/
structure Rect where
  x : ℚ
  y : ℚ
  width : ℚ
  height : ℚ
deriving DecidableEq, Repr

/-- Edge sizes for padding, border and margin (src/layout.rs `EdgeSizes`). -/
structure EdgeSizes where
  left : ℚ
  right : ℚ
  top : ℚ
  bottom : ℚ
deriving DecidableEq, Repr

/-- All-zero edge sizes (src/layout.rs `EdgeSizes::zero`). -/
def EdgeSizes.zero : EdgeSizes := ⟨0, 0, 0, 0⟩

/-- Outward expansion of a rectangle by edge sizes
(src/layout.rs `Rect::expanded_by`). -/
def Rect.expanded_by (r : Rect) (edge : EdgeSizes) : Rect :=
  { x := r.x - edge.left
    y := r.y - edge.top
    width := r.width + edge.left + edge.right
    height := r.height + edge.top + edge.bottom }

/-- Complete box dimensions (src/layout.rs `Dimensions`). -/
structure Dimensions where
  content : Rect
  padding : EdgeSizes
  border : EdgeSizes
  margin : EdgeSizes
deriving DecidableEq, Repr

/-- All-zero dimensions (src/layout.rs `Dimensions::default()`). -/
def Dimensions.default : Dimensions :=
  ⟨⟨0, 0, 0, 0⟩, EdgeSizes.zero, EdgeSizes.zero, EdgeSizes.zero⟩

/-- Content box (src/layout.rs `Dimensions::content_box`). -/
def Dimensions.content_box (d : Dimensions) : Rect := d.content

/-- Padding box (src/layout.rs `Dimensions::padding_box`). -/
def Dimensions.padding_box (d : Dimensions) : Rect :=
  d.content_box.expanded_by d.padding

/-- Border box (src/layout.rs `Dimensions::border_box`). -/
def Dimensions.border_box (d : Dimensions) : Rect :=
  d.padding_box.expanded_by d.border

/-- Margin box (src/layout.rs `Dimensions::margin_box`). -/
def Dimensions.margin_box (d : Dimensions) : Rect :=
  d.border_box.expanded_by d.margin

/-- Box type (src/layout.rs `BoxType`): block and inline boxes carry a style
node, anonymous blocks carry none. -/
inductive BoxType where
  | blockNode (s : StyledNode)
  | inlineNode (s : StyledNode)
  | anonymousBlock

/-- Layout box (src/layout.rs `LayoutBox`): dimensions, box type, children. -/
inductive LayoutBox where
  | mk (dimensions : Dimensions) (box_type : BoxType) (children : List LayoutBox)

/-- Dimensions of a layout box. -/
def LayoutBox.dimensions : LayoutBox → Dimensions
  | .mk d _ _ => d

/-- Box type of a layout box. -/
def LayoutBox.box_type : LayoutBox → BoxType
  | .mk _ bt _ => bt

/-- Children of a layout box. -/
def LayoutBox.children : LayoutBox → List LayoutBox
  | .mk _ _ cs => cs

/-- Fresh layout box with zeroed dimensions and no children
(src/layout.rs `LayoutBox::new`). -/
def LayoutBox.new (bt : BoxType) : LayoutBox :=
  .mk Dimensions.default bt []

/-- Style node of a layout box (src/layout.rs `LayoutBox::get_style_node`);
`none` models the `panic!("Anonymous block has no style node")`. -/
def get_style_node : LayoutBox → Option StyledNode
  | .mk _ (.blockNode node) _ => some node
  | .mk _ (.inlineNode node) _ => some node
  | .mk _ .anonymousBlock _ => none

/-! ## Block layout algorithm (src/layout.rs `impl LayoutBox`) -/

/-- The keyword value `auto` (the local `auto` of `calculate_block_width`). -/
def autoVal : Value := .keyword "auto"

/-- The zero length (the local `zero` of `calculate_block_width`). -/
def zeroLength : Value := .length 0 .px

/-- The local `width` of `calculate_block_width`:
`style.value("width").unwrap_or(auto.clone())`. -/
def widthValue (style : StyledNode) : Value :=
  (style.value "width").getD autoVal

/-- The local `margin_left` of `calculate_block_width`. -/
def marginLeftValue (style : StyledNode) : Value :=
  style.lookup "margin-left" "margin" zeroLength

/-- The local `margin_right` of `calculate_block_width`. -/
def marginRightValue (style : StyledNode) : Value :=
  style.lookup "margin-right" "margin" zeroLength

/-- The local `border_left` of `calculate_block_width`. -/
def borderLeftValue (style : StyledNode) : Value :=
  style.lookup "border-left-width" "border-width" zeroLength

/-- The local `border_right` of `calculate_block_width`. -/
def borderRightValue (style : StyledNode) : Value :=
  style.lookup "border-right-width" "border-width" zeroLength

/-- The local `padding_left` of `calculate_block_width`. -/
def paddingLeftValue (style : StyledNode) : Value :=
  style.lookup "padding-left" "padding" zeroLength

/-- The local `padding_right` of `calculate_block_width`. -/
def paddingRightValue (style : StyledNode) : Value :=
  style.lookup "padding-right" "padding" zeroLength

/-- The local `total` of `calculate_block_width`: the pixel sum of the seven
horizontal values (non-Length values contribute 0 through `to_px`). -/
def horizontalTotal (style : StyledNode) : ℚ :=
  (marginLeftValue style).to_px + (marginRightValue style).to_px +
    (borderLeftValue style).to_px + (borderRightValue style).to_px +
    (paddingLeftValue style).to_px + (paddingRightValue style).to_px +
    (widthValue style).to_px

/-- The local `underflow` of `calculate_block_width`:
containing content width minus `total`. -/
def widthUnderflow (style : StyledNode) (containing_block : Dimensions) : ℚ :=
  containing_block.content.width - horizontalTotal style

/-- Width resolution of a block box (src/layout.rs `calculate_block_width`):
reads width, horizontal margins, borders and paddings (with shorthand
fallback), computes `underflow`, resolves the `auto` cases exactly as the
Rust `match (width == auto, margin_left == auto, margin_right == auto)`, and
stores the horizontal results into the dimensions `d` of the box. -/
def calculate_block_width (style : StyledNode) (containing_block : Dimensions)
    (d : Dimensions) : Dimensions :=
  let width := widthValue style
  let margin_left := marginLeftValue style
  let margin_right := marginRightValue style
  let border_left := borderLeftValue style
  let border_right := borderRightValue style
  let padding_left := paddingLeftValue style
  let padding_right := paddingRightValue style
  let underflow := widthUnderflow style containing_block
  -- the Rust match on (width == auto, margin_left == auto, margin_right == auto),
  -- arms reordered into nested ifs with identical case coverage
  let res : Value × Value × Value :=
    if width = autoVal then
      -- (true, _, _): reset auto margins, then expand width or absorb into
      -- margin-right when the underflow is negative
      let ml := if margin_left = autoVal then zeroLength else margin_left
      let mr := if margin_right = autoVal then zeroLength else margin_right
      if 0 ≤ underflow then
        (.length underflow .px, ml, mr)
      else
        (zeroLength, ml, .length (mr.to_px + underflow) .px)
    else if margin_left = autoVal ∧ margin_right = autoVal then
      -- (false, true, true): centre the box
      (width, .length (underflow / 2) .px, .length (underflow / 2) .px)
    else if margin_right = autoVal then
      -- (false, false, true)
      (width, margin_left, .length underflow .px)
    else if margin_left = autoVal then
      -- (false, true, false)
      (width, .length underflow .px, margin_right)
    else
      -- (false, false, false): overconstrained, adjust margin-right
      (width, margin_left, .length (margin_right.to_px + underflow) .px)
  { d with
    content := { d.content with width := res.1.to_px }
    margin := { d.margin with
      left := res.2.1.to_px
      right := res.2.2.to_px }
    border := { d.border with
      left := border_left.to_px
      right := border_right.to_px }
    padding := { d.padding with
      left := padding_left.to_px
      right := padding_right.to_px } }

/-- Position resolution of a block box
(src/layout.rs `calculate_block_position`): resolves the vertical margins,
borders and paddings, then places the content origin inside the containing
block, stacked below the height already accumulated in the container. -/
def calculate_block_position (style : StyledNode)
    (containing_block : Dimensions) (d : Dimensions) : Dimensions :=
  let mTop := (style.lookup "margin-top" "margin" zeroLength).to_px
  let mBottom := (style.lookup "margin-bottom" "margin" zeroLength).to_px
  let bTop := (style.lookup "border-top-width" "border-width" zeroLength).to_px
  let bBottom := (style.lookup "border-bottom-width" "border-width" zeroLength).to_px
  let pTop := (style.lookup "padding-top" "padding" zeroLength).to_px
  let pBottom := (style.lookup "padding-bottom" "padding" zeroLength).to_px
  { d with
    margin := { d.margin with top := mTop, bottom := mBottom }
    border := { d.border with top := bTop, bottom := bBottom }
    padding := { d.padding with top := pTop, bottom := pBottom }
    content := { d.content with
      x := containing_block.content.x + d.margin.left + d.border.left +
        d.padding.left
      y := containing_block.content.height + containing_block.content.y +
        mTop + bTop + pTop } }

/-- Height resolution of a block box (src/layout.rs `calculate_block_height`):
an explicit pixel `height` overrides the accumulated content height. -/
def calculate_block_height (style : StyledNode) (d : Dimensions) : Dimensions :=
  match style.value "height" with
  | some (.length h .px) => { d with content := { d.content with height := h } }
  | _ => d

mutual

/-- Layout dispatch (src/layout.rs `LayoutBox::layout`): block boxes run
`layout_block`; inline boxes are a no-op; anonymous blocks also dispatch to
`layout_block`, whose first step `calculate_block_width` calls
`get_style_node`, which panics for an anonymous block — modelled by `none`.
The laid-out box is returned instead of mutated in place. -/
def layout : LayoutBox → Dimensions → Option LayoutBox
  | .mk d (.blockNode node) cs, containing_block =>
    let d1 := calculate_block_width node containing_block d
    let d2 := calculate_block_position node containing_block d1
    match layout_block_children cs d2 with
    | none => none
    | some (cs', d3) =>
      some (.mk (calculate_block_height node d3) (.blockNode node) cs')
  | .mk d (.inlineNode node) cs, _ => some (.mk d (.inlineNode node) cs)
  | .mk d .anonymousBlock cs, containing_block =>
    match get_style_node (.mk d .anonymousBlock cs) with
    | none => none
    | some node =>
      -- dead branch: `get_style_node` of an anonymous block is always `none`;
      -- kept to mirror the shape `layout_block` would have if it proceeded
      let d1 := calculate_block_width node containing_block d
      let d2 := calculate_block_position node containing_block d1
      match layout_block_children cs d2 with
      | none => none
      | some (cs', d3) =>
        some (.mk (calculate_block_height node d3) .anonymousBlock cs')

/-- Children layout (src/layout.rs `layout_block_children`): lay out each
child in order with the current dimensions of the box as containing block,
adding each child's margin-box height to the accumulated content height.
Returns the laid-out children and the updated dimensions of the box. -/
def layout_block_children : List LayoutBox → Dimensions →
    Option (List LayoutBox × Dimensions)
  | [], d => some ([], d)
  | c :: cs, d =>
    match layout c d with
    | none => none
    | some c' =>
      let d' := { d with content := { d.content with
        height := d.content.height + c'.dimensions.margin_box.height } }
      match layout_block_children cs d' with
      | none => none
      | some (cs', d'') => some (c' :: cs', d'')

end

/-! ## Painting (src/painting.rs)

`painting::Rect` has exactly the fields of `layout::Rect` and the `From`
conversion between them is the field-wise identity, so `Rect` is reused. -/

/-- Display command (src/painting.rs `DisplayCommand`); only `SolidColor`. -/
inductive DisplayCommand where
  | solidColor (c : Color) (r : Rect)
deriving DecidableEq, Repr

/-- Display list (src/painting.rs `DisplayList`). -/
abbrev DisplayList := List DisplayCommand

/-- Canvas (src/painting.rs `Canvas`): row-major pixel vector with width and
height. -/
structure Canvas where
  pixels : List Color
  width : ℕ
  height : ℕ
deriving DecidableEq, Repr

/-- Opaque white, the canvas background. -/
def whiteColor : Color := ⟨255, 255, 255, 255⟩

/-- Fresh canvas (src/painting.rs `Canvas::new`): `width * height` pixels of
opaque white. -/
def Canvas.new (width height : ℕ) : Canvas :=
  ⟨List.replicate (width * height) whiteColor, width, height⟩

/-- Rust `f32::clamp(lo, hi)`: below `lo` gives `lo`, above `hi` gives `hi`,
otherwise the value itself. -/
def clampQ (v lo hi : ℚ) : ℚ :=
  if v < lo then lo else if hi < v then hi else v

/-- Rust `as usize` on a finite non-negative float: truncation toward zero
(and a negative value saturates to 0, which `Int.toNat` also gives). -/
def qToUsize (q : ℚ) : ℕ := q.floor.toNat

/-- Single pixel store `self.pixels[idx] = color`. -/
def Canvas.setPixel (c : Canvas) (idx : ℕ) (color : Color) : Canvas :=
  { c with pixels := c.pixels.set idx color }

/-- Inner loop of `paint_item`: `for x in x0..x1` storing at `x + y * width`. -/
def Canvas.paintRow (c : Canvas) (color : Color) (y x0 n : ℕ) : Canvas :=
  (List.range' x0 n).foldl (fun cv x => cv.setPixel (x + y * cv.width) color) c

/-- The local `x0` of `paint_item`: `rect.x.clamp(0.0, width as f32) as usize`. -/
def clipX0 (c : Canvas) (rect : Rect) : ℕ :=
  qToUsize (clampQ rect.x 0 (c.width : ℚ))

/-- The local `y0` of `paint_item`. -/
def clipY0 (c : Canvas) (rect : Rect) : ℕ :=
  qToUsize (clampQ rect.y 0 (c.height : ℚ))

/-- The local `x1` of `paint_item`, clamping the right edge. -/
def clipX1 (c : Canvas) (rect : Rect) : ℕ :=
  qToUsize (clampQ (rect.x + rect.width) 0 (c.width : ℚ))

/-- The local `y1` of `paint_item`, clamping the bottom edge. -/
def clipY1 (c : Canvas) (rect : Rect) : ℕ :=
  qToUsize (clampQ (rect.y + rect.height) 0 (c.height : ℚ))

/-- Paint one display command (src/painting.rs `Canvas::paint_item`): clamp
the four rectangle edges to the canvas bounds, truncate toward zero, then
overwrite every pixel of the clipped rectangle with the colour. -/
def Canvas.paint_item (c : Canvas) (item : DisplayCommand) : Canvas :=
  match item with
  | .solidColor color rect =>
    let x0 := clipX0 c rect
    let y0 := clipY0 c rect
    let x1 := clipX1 c rect
    let y1 := clipY1 c rect
    (List.range' y0 (y1 - y0)).foldl
      (fun cv y => cv.paintRow color y x0 (x1 - x0)) c

/-- Colour of a CSS property of a box (src/painting.rs `get_color`):
block and inline boxes read the property from their style node, anonymous
blocks have none. -/
def get_color (layout_box : LayoutBox) (name : String) : Option Color :=
  match layout_box.box_type with
  | .blockNode style =>
    match style.value name with
    | some (.colorValue color) => some color
    | _ => none
  | .inlineNode style =>
    match style.value name with
    | some (.colorValue color) => some color
    | _ => none
  | .anonymousBlock => none

/-- Background command of a box (src/painting.rs `render_background`):
a `SolidColor` over the border box when a `background` colour resolves. -/
def render_background (list : DisplayList) (layout_box : LayoutBox) :
    DisplayList :=
  match get_color layout_box "background" with
  | some color =>
    list ++ [.solidColor color layout_box.dimensions.border_box]
  | none => list

/-- Border commands of a box (src/painting.rs `render_borders`): when a
`border-color` resolves, four strips (left, right, top, bottom) of the
border box, with the border edge sizes as thickness. -/
def render_borders (list : DisplayList) (layout_box : LayoutBox) :
    DisplayList :=
  match get_color layout_box "border-color" with
  | none => list
  | some color =>
    let d := layout_box.dimensions
    let bb := d.border_box
    list ++
      [.solidColor color ⟨bb.x, bb.y, d.border.left, bb.height⟩,
       .solidColor color
         ⟨bb.x + bb.width - d.border.right, bb.y, d.border.right, bb.height⟩,
       .solidColor color ⟨bb.x, bb.y, bb.width, d.border.top⟩,
       .solidColor color
         ⟨bb.x, bb.y + bb.height - d.border.bottom, bb.width, d.border.bottom⟩]

mutual

/-- Recursive display-list emission (src/painting.rs `render_layout_box`):
this box's background, then its borders, then the children in order. -/
def render_layout_box (list : DisplayList) (layout_box : LayoutBox) :
    DisplayList :=
  match layout_box with
  | .mk d bt cs =>
    render_children (render_borders (render_background list (.mk d bt cs))
      (.mk d bt cs)) cs

/-- The `for child in &layout_box.children` loop of `render_layout_box`. -/
def render_children (list : DisplayList) : List LayoutBox → DisplayList
  | [] => list
  | c :: cs => render_children (render_layout_box list c) cs

end

/-- Display-list construction (src/painting.rs `build_display_list`). -/
def build_display_list (layout_root : LayoutBox) : DisplayList :=
  render_layout_box [] layout_root

/-- Full paint (src/painting.rs `paint`): build the display list, allocate a
white canvas sized by the bounds, execute every command in list order. -/
def paint (layout_root : LayoutBox) (bounds : Rect) : Canvas :=
  let display_list := build_display_list layout_root
  display_list.foldl Canvas.paint_item
    (Canvas.new (qToUsize bounds.width) (qToUsize bounds.height))

/-! ## Comparison definitions and concrete instances -/

/-- Tokens of the `class` attribute read as the spec's words describe them:
"parsed as whitespace-separated tokens", i.e. split at every whitespace
character.  This follows the specification text, not the code (the code
splits on the space character only); it exists to compare the two. -/
def classesWhitespaceTokens (e : ElementData) : List String :=
  match e.getAttr "class" with
  | some classlist =>
    (classlist.toList.splitOnP (fun ch => ch.isWhitespace)).map
      (fun l => String.mk l)
  | none => []

/-- Rectangle containment: `outer` contains `inner` when every edge of
`inner` lies within the corresponding edge of `outer`. -/
def Rect.containsRect (outer inner : Rect) : Prop :=
  outer.x ≤ inner.x ∧ outer.y ≤ inner.y ∧
    inner.x + inner.width ≤ outer.x + outer.width ∧
    inner.y + inner.height ≤ outer.y + outer.height

instance (outer inner : Rect) : Decidable (outer.containsRect inner) := by
  unfold Rect.containsRect; infer_instance

/-- Element with a tab inside its `class` attribute, distinguishing the
space-only split of the code from a whitespace split. -/
def tabElem : ElementData := ⟨"div", [("class", "a\tb")]⟩

/-- Selector requiring class `a` only. -/
def tabSel : SimpleSelector := ⟨none, none, ["a"]⟩

/-- All four edges non-negative. -/
def EdgeSizes.Nonneg (e : EdgeSizes) : Prop :=
  0 ≤ e.left ∧ 0 ≤ e.right ∧ 0 ≤ e.top ∧ 0 ≤ e.bottom

instance (e : EdgeSizes) : Decidable e.Nonneg := by
  unfold EdgeSizes.Nonneg; infer_instance

/-- Dimensions with a negative left margin, as the over-constrained branch of
`calculate_block_width` can produce. -/
def negMarginDims : Dimensions :=
  { content := ⟨0, 0, 10, 10⟩
    padding := EdgeSizes.zero
    border := EdgeSizes.zero
    margin := ⟨-1, 0, 0, 0⟩ }

/-- Dimensions with non-negative, partly positive edges. -/
def posDims : Dimensions :=
  { content := ⟨5, 7, 10, 10⟩
    padding := ⟨1, 1, 1, 1⟩
    border := ⟨2, 2, 2, 2⟩
    margin := ⟨3, 0, 3, 0⟩ }

/-- Styled node with `width: 200px` and both horizontal margins `auto`. -/
def centerStyle : StyledNode :=
  .mk [("width", .length 200 .px), ("margin-left", autoVal),
       ("margin-right", autoVal)] []

/-- Styled node with everything unset (so `width` defaults to `auto`). -/
def emptyStyle : StyledNode := .mk [] []

/-- Containing block of content width 300 at the origin. -/
def cb300 : Dimensions :=
  { Dimensions.default with content := ⟨0, 0, 300, 0⟩ }

/-- Element with both a class and an id, for the cascade instance. -/
def cascadeElem : ElementData := ⟨"div", [("class", "c"), ("id", "i")]⟩

/-- Rule `.c` with specificity (0,1,0) setting `background` to red. -/
def classRule : Rule :=
  ⟨[.simple ⟨none, none, ["c"]⟩],
   [⟨"background", .colorValue ⟨255, 0, 0, 255⟩⟩]⟩

/-- Rule `#i` with specificity (1,0,0) setting `background` to green. -/
def idRule : Rule :=
  ⟨[.simple ⟨none, some "i", []⟩],
   [⟨"background", .colorValue ⟨0, 255, 0, 255⟩⟩]⟩

/-- Element with tag `p` and no attributes. -/
def tagOnlyElem : ElementData := ⟨"p", []⟩

/-- Rule whose selectors are sorted descending by specificity: `#x` with
specificity (1,0,0), then `p` with specificity (0,0,1). -/
def sortedRule : Rule :=
  ⟨[.simple ⟨none, some "x", []⟩, .simple ⟨some "p", none, []⟩],
   [⟨"color", .keyword "red"⟩]⟩

/-- Styled node with an explicit pixel height and nothing else. -/
def heightStyle (h : ℚ) : StyledNode := .mk [("height", .length h .px)] []

/-- Fresh block child box of explicit height 40. -/
def child40 : LayoutBox := LayoutBox.new (.blockNode (heightStyle 40))

/-- Fresh block child box of explicit height 60. -/
def child60 : LayoutBox := LayoutBox.new (.blockNode (heightStyle 60))

/-- Block parent with no style properties and the two children above. -/
def stackParent : LayoutBox :=
  .mk Dimensions.default (.blockNode emptyStyle) [child40, child60]

/-- The laid-out form of `child40` inside `cb300`. -/
def laidChild40 : LayoutBox :=
  .mk ⟨⟨0, 0, 300, 40⟩, EdgeSizes.zero, EdgeSizes.zero, EdgeSizes.zero⟩
    (.blockNode (heightStyle 40)) []

/-- `cb300` after absorbing the margin-box height of `laidChild40`. -/
def cb300After : Dimensions :=
  { Dimensions.default with content := ⟨0, 0, 300, 40⟩ }

/-- Opaque red. -/
def redColor : Color := ⟨255, 0, 0, 255⟩

/-- Opaque blue. -/
def blueColor : Color := ⟨0, 0, 255, 255⟩

/-- Dimensions covering the 2 by 2 square at the origin with zero edges. -/
def paintDims : Dimensions :=
  { Dimensions.default with content := ⟨0, 0, 2, 2⟩ }

/-- Child box with a blue background over `paintDims`. -/
def blueChild : LayoutBox :=
  .mk paintDims (.blockNode (.mk [("background", .colorValue blueColor)] [])) []

/-- Parent box with a red background over the same `paintDims`, holding
`blueChild`. -/
def redParent : LayoutBox :=
  .mk paintDims (.blockNode (.mk [("background", .colorValue redColor)] []))
    [blueChild]

/-- Rectangle extending past the canvas on all sides. -/
def overRect : Rect := ⟨-1, -1, 4, 4⟩

/-! ## Helper lemmas -/

/-- Absent-or-equal reading of the tag/id check of `matches_simple_selector`. -/
lemma option_any_ne_eq_false {α : Type} [DecidableEq α] (o : Option α) (x : α) :
    (o.any (fun v => x != v)) = false ↔ ∀ t ∈ o, x = t := by
  cases o <;> simp [Option.any]

/-- Absent-or-equal reading of the id check against an optional attribute. -/
lemma option_any_ne_some_eq_false {α : Type} [DecidableEq α] (o : Option α)
    (x : Option α) : (o.any (fun v => x != some v)) = false ↔
      ∀ i ∈ o, x = some i := by
  cases o <;> simp [Option.any]

/-- Subset reading of the class check of `matches_simple_selector`. -/
lemma list_any_not_contains_eq_false (cl l : List String) :
    (cl.any (fun c => !(l.contains c))) = false ↔ ∀ c ∈ cl, c ∈ l := by
  simp [List.any_eq_false]

/-- Applying declarations to a property map prepends their insertions. -/
lemma applyDeclarations_eq_append (ds : List Declaration) :
    ∀ (m : PropertyMap),
      applyDeclarations m ds = applyDeclarations [] ds ++ m := by
  induction ds with
  | nil => intro m; rfl
  | cons d ds ih =>
    intro m
    have e1 : applyDeclarations m (d :: ds) =
        applyDeclarations ((d.name, d.value) :: m) ds := rfl
    have e2 : applyDeclarations [] (d :: ds) =
        applyDeclarations [(d.name, d.value)] ds := rfl
    rw [e1, e2, ih ((d.name, d.value) :: m), ih [(d.name, d.value)]]
    simp

/-- First-match lookup distributes over append. -/
lemma pm_lookup_append (p : String) (l1 l2 : PropertyMap) :
    List.lookup p (l1 ++ l2) = (List.lookup p l1).or (List.lookup p l2) := by
  induction l1 with
  | nil => simp [List.lookup]
  | cons kv l1 ih =>
    rcases kv with ⟨k, v⟩
    cases hpk : (p == k) with
    | true => simp [List.lookup, hpk]
    | false => simp [List.lookup, hpk, ih]

/-- Reflexivity of the non-strict specificity order. -/
lemma specLe_refl (a : Specificity) : specLe a a = true := by
  simp [specLe, specCmp]
  rfl

/-- Component characterisation of rectangle equality. -/
lemma rect_eq_iff {a b : Rect} :
    a = b ↔ a.x = b.x ∧ a.y = b.y ∧ a.width = b.width ∧ a.height = b.height := by
  cases a; cases b; simp

/-- Component characterisation of an all-zero `EdgeSizes`. -/
lemma edgeSizes_eq_zero_iff {e : EdgeSizes} :
    e = EdgeSizes.zero ↔ e.left = 0 ∧ e.right = 0 ∧ e.top = 0 ∧ e.bottom = 0 := by
  cases e; simp [EdgeSizes.zero]

/-- Emitting a background command only appends to the incoming list. -/
lemma render_background_append (l : DisplayList) (b : LayoutBox) :
    render_background l b = l ++ render_background [] b := by
  unfold render_background
  cases get_color b "background" <;> simp

/-- Emitting border commands only appends to the incoming list. -/
lemma render_borders_append (l : DisplayList) (b : LayoutBox) :
    render_borders l b = l ++ render_borders [] b := by
  unfold render_borders
  cases get_color b "border-color" <;> simp

/-- The display-list emitters only append to their accumulator, jointly for
boxes and child lists, by strong induction on size. -/
lemma render_append_aux : ∀ N : ℕ,
    (∀ b : LayoutBox, sizeOf b ≤ N →
      ∀ l, render_layout_box l b = l ++ render_layout_box [] b) ∧
    (∀ cs : List LayoutBox, sizeOf cs ≤ N →
      ∀ l, render_children l cs = l ++ render_children [] cs) := by
  intro N
  induction N using Nat.strong_induction_on with
  | _ N ih =>
    constructor
    · rintro ⟨d, bt, cs⟩ hb l
      rw [render_layout_box, render_layout_box]
      have hcs : sizeOf cs < N := by
        have hlt : sizeOf cs < sizeOf (LayoutBox.mk d bt cs) := by simp
        omega
      have hlist := (ih (sizeOf cs) hcs).2 cs le_rfl
      rw [hlist (render_borders (render_background l (LayoutBox.mk d bt cs))
            (LayoutBox.mk d bt cs)),
          hlist (render_borders (render_background [] (LayoutBox.mk d bt cs))
            (LayoutBox.mk d bt cs)),
          render_borders_append
            (render_background l (LayoutBox.mk d bt cs)),
          render_borders_append
            (render_background [] (LayoutBox.mk d bt cs)),
          render_background_append l]
      simp
    · intro cs hcs l
      cases cs with
      | nil =>
        rw [render_children, render_children]
        simp
      | cons c cs' =>
        rw [render_children, render_children]
        have hc : sizeOf c < N := by
          have hlt : sizeOf c < sizeOf (c :: cs') := by simp; omega
          omega
        have hcs' : sizeOf cs' < N := by
          have hlt : sizeOf cs' < sizeOf (c :: cs') := by simp
          omega
        have h1 := (ih _ hc).1 c le_rfl
        have h2 := (ih _ hcs').2 cs' le_rfl
        rw [h1, h2 (l ++ render_layout_box [] c), h2 (render_layout_box [] c)]
        simp

/-- The child loop of `render_layout_box` concatenates the children's
display lists in order. -/
lemma render_children_flatten : ∀ cs : List LayoutBox,
    render_children [] cs = (cs.map build_display_list).flatten := by
  intro cs
  induction cs with
  | nil => rw [render_children]; rfl
  | cons c cs ih =>
    rw [render_children,
      (render_append_aux (sizeOf cs)).2 cs le_rfl (render_layout_box [] c)]
    rw [ih]
    rfl

/-- The `as usize` truncation agrees with the integer floor. -/
lemma qToUsize_eq (q : ℚ) : qToUsize q = ⌊q⌋.toNat := rfl

/-- A value clamped to `[0, hi]` does not exceed `hi`. -/
lemma clampQ_le (v hi : ℚ) (h0 : 0 ≤ hi) : clampQ v 0 hi ≤ hi := by
  unfold clampQ
  split_ifs <;> linarith

/-- Clamping to `[0, w]` and truncating lands inside `[0, w]`. -/
lemma qToUsize_clamp_le (v : ℚ) (w : ℕ) :
    qToUsize (clampQ v 0 (w : ℚ)) ≤ w := by
  rw [qToUsize_eq]
  have h1 : clampQ v 0 (w : ℚ) ≤ (w : ℚ) :=
    clampQ_le v _ (by positivity)
  have h2 : ⌊clampQ v 0 (w : ℚ)⌋ ≤ (w : ℤ) := by
    have := Int.floor_le_floor h1
    simpa using this
  omega

/-- The clipped left edge stays within the canvas width. -/
lemma clipX0_le (c : Canvas) (rect : Rect) : clipX0 c rect ≤ c.width :=
  qToUsize_clamp_le _ _

/-- The clipped right edge stays within the canvas width. -/
lemma clipX1_le (c : Canvas) (rect : Rect) : clipX1 c rect ≤ c.width :=
  qToUsize_clamp_le _ _

/-- The clipped top edge stays within the canvas height. -/
lemma clipY0_le (c : Canvas) (rect : Rect) : clipY0 c rect ≤ c.height :=
  qToUsize_clamp_le _ _

/-- The clipped bottom edge stays within the canvas height. -/
lemma clipY1_le (c : Canvas) (rect : Rect) : clipY1 c rect ≤ c.height :=
  qToUsize_clamp_le _ _

/-- One step of the inner pixel loop. -/
lemma paintRow_succ (c : Canvas) (color : Color) (y x0 n : ℕ) :
    c.paintRow color y x0 (n + 1) =
      (c.setPixel (x0 + y * c.width) color).paintRow color y (x0 + 1) n := by
  unfold Canvas.paintRow
  rw [List.range'_succ, List.foldl_cons]

/-- Storing a pixel keeps the width. -/
lemma setPixel_width (c : Canvas) (i : ℕ) (color : Color) :
    (c.setPixel i color).width = c.width := rfl

/-- Storing a pixel keeps the height. -/
lemma setPixel_height (c : Canvas) (i : ℕ) (color : Color) :
    (c.setPixel i color).height = c.height := rfl

/-- Storing a pixel keeps the pixel count. -/
lemma setPixel_length (c : Canvas) (i : ℕ) (color : Color) :
    (c.setPixel i color).pixels.length = c.pixels.length := by
  simp [Canvas.setPixel]

/-- A painted row keeps the width. -/
lemma paintRow_width (color : Color) (y : ℕ) : ∀ (n x0 : ℕ) (c : Canvas),
    (c.paintRow color y x0 n).width = c.width := by
  intro n
  induction n with
  | zero => intro x0 c; rfl
  | succ n ihn => intro x0 c; rw [paintRow_succ, ihn]; rfl

/-- A painted row keeps the height. -/
lemma paintRow_height (color : Color) (y : ℕ) : ∀ (n x0 : ℕ) (c : Canvas),
    (c.paintRow color y x0 n).height = c.height := by
  intro n
  induction n with
  | zero => intro x0 c; rfl
  | succ n ihn => intro x0 c; rw [paintRow_succ, ihn]; rfl

/-- A painted row keeps the pixel count. -/
lemma paintRow_length (color : Color) (y : ℕ) : ∀ (n x0 : ℕ) (c : Canvas),
    (c.paintRow color y x0 n).pixels.length = c.pixels.length := by
  intro n
  induction n with
  | zero => intro x0 c; rfl
  | succ n ihn => intro x0 c; rw [paintRow_succ, ihn, setPixel_length]

/-- Row-major indices `x + y * w` with `x < w` determine the coordinates. -/
lemma pixel_index_inj {w x x' y y' : ℕ} (hx : x < w) (hx' : x' < w)
    (h : x + y * w = x' + y' * w) : x = x' ∧ y = y' := by
  have hw : 0 < w := lt_of_le_of_lt (Nat.zero_le x) hx
  have h1 : (x + y * w) % w = x := by
    rw [Nat.add_mul_mod_self_right, Nat.mod_eq_of_lt hx]
  have h2 : (x' + y' * w) % w = x' := by
    rw [Nat.add_mul_mod_self_right, Nat.mod_eq_of_lt hx']
  have hxx : x = x' := by rw [← h1, ← h2, h]
  subst hxx
  have hyy : y * w = y' * w := by omega
  exact ⟨rfl, Nat.eq_of_mul_eq_mul_right hw hyy⟩

/-- A painted row leaves indices outside its store positions unchanged. -/
lemma paintRow_getElem_miss (color : Color) (y w : ℕ) :
    ∀ (n x0 : ℕ) (c : Canvas), c.width = w → ∀ i : ℕ,
    (∀ x, x0 ≤ x → x < x0 + n → i ≠ x + y * w) →
    ((c.paintRow color y x0 n).pixels)[i]? = c.pixels[i]? := by
  intro n
  induction n with
  | zero => intro x0 c hw i hmiss; rfl
  | succ n ihn =>
    intro x0 c hw i hmiss
    rw [paintRow_succ, hw,
      ihn (x0 + 1) (c.setPixel (x0 + y * w) color)
        (by rw [setPixel_width, hw])
        i (fun x h1 h2 => hmiss x (by omega) (by omega))]
    simp only [Canvas.setPixel]
    exact List.getElem?_set_ne
      (fun h => hmiss x0 le_rfl (by omega) h.symm)

/-- A painted row overwrites every index in its store positions. -/
lemma paintRow_getElem_hit (color : Color) (y w : ℕ) :
    ∀ (n x0 : ℕ) (c : Canvas), c.width = w →
    ∀ x : ℕ, x0 ≤ x → x < x0 + n → x + y * w < c.pixels.length →
    ((c.paintRow color y x0 n).pixels)[x + y * w]? = some color := by
  intro n
  induction n with
  | zero => intro x0 c hw x h1 h2; omega
  | succ n ihn =>
    intro x0 c hw x h1 h2 hlen
    rw [paintRow_succ, hw]
    rcases Nat.eq_or_lt_of_le h1 with rfl | hlt
    · rw [paintRow_getElem_miss color y w n (x0 + 1) _
        (by rw [setPixel_width, hw])
        (x0 + y * w) (fun x' hx1 hx2 => by omega)]
      simp only [Canvas.setPixel]
      exact List.getElem?_set_eq_of_lt color hlen
    · exact ihn (x0 + 1) (c.setPixel (x0 + y * w) color)
        (by rw [setPixel_width, hw]) x (by omega) (by omega)
        (by rw [setPixel_length]; exact hlen)

/-- The painted row block keeps the width. -/
lemma paintRows_width (color : Color) (x0 n : ℕ) :
    ∀ (m y0 : ℕ) (c : Canvas),
    ((List.range' y0 m).foldl
      (fun cv yy => cv.paintRow color yy x0 n) c).width = c.width := by
  intro m
  induction m with
  | zero => intro y0 c; rfl
  | succ m ihm =>
    intro y0 c
    rw [List.range'_succ, List.foldl_cons, ihm, paintRow_width]

/-- The painted row block keeps the height. -/
lemma paintRows_height (color : Color) (x0 n : ℕ) :
    ∀ (m y0 : ℕ) (c : Canvas),
    ((List.range' y0 m).foldl
      (fun cv yy => cv.paintRow color yy x0 n) c).height = c.height := by
  intro m
  induction m with
  | zero => intro y0 c; rfl
  | succ m ihm =>
    intro y0 c
    rw [List.range'_succ, List.foldl_cons, ihm, paintRow_height]

/-- The painted row block keeps the pixel count. -/
lemma paintRows_length (color : Color) (x0 n : ℕ) :
    ∀ (m y0 : ℕ) (c : Canvas),
    ((List.range' y0 m).foldl
      (fun cv yy => cv.paintRow color yy x0 n) c).pixels.length =
      c.pixels.length := by
  intro m
  induction m with
  | zero => intro y0 c; rfl
  | succ m ihm =>
    intro y0 c
    rw [List.range'_succ, List.foldl_cons, ihm, paintRow_length]

/-- The painted row block leaves indices outside all its rows unchanged. -/
lemma paintRows_getElem_miss (color : Color) (x0 n w : ℕ) :
    ∀ (m y0 : ℕ) (c : Canvas), c.width = w → ∀ i : ℕ,
    (∀ yy x, y0 ≤ yy → yy < y0 + m → x0 ≤ x → x < x0 + n → i ≠ x + yy * w) →
    ((List.range' y0 m).foldl
      (fun cv yy => cv.paintRow color yy x0 n) c).pixels[i]? =
      c.pixels[i]? := by
  intro m
  induction m with
  | zero => intro y0 c hw i hmiss; rfl
  | succ m ihm =>
    intro y0 c hw i hmiss
    rw [List.range'_succ, List.foldl_cons,
      ihm (y0 + 1) (c.paintRow color y0 x0 n)
        (by rw [paintRow_width]; exact hw)
        i (fun yy x h1 h2 => hmiss yy x (by omega) (by omega)),
      paintRow_getElem_miss color y0 w n x0 c hw i
        (fun x h1 h2 => hmiss y0 x le_rfl (by omega) h1 h2)]

/-- The painted row block overwrites every pixel of its rectangle. -/
lemma paintRows_getElem_hit (color : Color) (x0 n w : ℕ) :
    ∀ (m y0 : ℕ) (c : Canvas), c.width = w → x0 + n ≤ w →
    ∀ x y : ℕ, x0 ≤ x → x < x0 + n → y0 ≤ y → y < y0 + m →
    x + y * w < c.pixels.length →
    ((List.range' y0 m).foldl
      (fun cv yy => cv.paintRow color yy x0 n) c).pixels[x + y * w]? =
      some color := by
  intro m
  induction m with
  | zero => intro y0 c hw hxn x y hx1 hx2 hy1 hy2; omega
  | succ m ihm =>
    intro y0 c hw hxn x y hx1 hx2 hy1 hy2 hlen
    rw [List.range'_succ, List.foldl_cons]
    rcases Nat.eq_or_lt_of_le hy1 with rfl | hylt
    · rw [paintRows_getElem_miss color x0 n w m (y0 + 1)
        (c.paintRow color y0 x0 n) (by rw [paintRow_width]; exact hw)
        (x + y0 * w) ?_]
      · exact paintRow_getElem_hit color y0 w n x0 c hw x hx1 hx2 hlen
      · intro yy x' h1 h2 h3 h4 heq
        have hxw : x < w := by omega
        have hx'w : x' < w := by omega
        obtain ⟨hxe, hye⟩ := pixel_index_inj hxw hx'w heq
        omega
    · exact ihm (y0 + 1) (c.paintRow color y0 x0 n)
        (by rw [paintRow_width]; exact hw) hxn x y hx1 hx2 (by omega)
        (by omega) (by rw [paintRow_length]; exact hlen)

/-- `paint_item` on a solid-colour command is exactly the clipped double
loop. -/
lemma paint_item_eq (c : Canvas) (color : Color) (rect : Rect) :
    c.paint_item (.solidColor color rect) =
      (List.range' (clipY0 c rect) (clipY1 c rect - clipY0 c rect)).foldl
        (fun cv y => cv.paintRow color y (clipX0 c rect)
          (clipX1 c rect - clipX0 c rect)) c := rfl

/-! ## Claim theorems -/

/-- C6 (counterexample): with the class attribute read as
whitespace-separated tokens — the claim's words — the stated equivalence
fails on an element whose `class` attribute separates two classes by a tab:
the code's space-only split does not match selector class `a`, but the
whitespace tokens do contain `a`. -/
theorem matches_simple_selector_whitespace_counterexample :
    ¬ (matches_simple_selector tabElem tabSel = true ↔
      (∀ t ∈ tabSel.tag_name, tabElem.tag_name = t) ∧
      (∀ i ∈ tabSel.id, tabElem.id = some i) ∧
      (∀ c ∈ tabSel.classList, c ∈ classesWhitespaceTokens tabElem)) := by
  intro h
  have hm : matches_simple_selector tabElem tabSel = false := by decide
  have : matches_simple_selector tabElem tabSel = true := by
    refine h.mpr ?_
    refine ⟨?_, ?_, ?_⟩
    · intro t ht; simp [tabSel] at ht
    · intro i hi; simp [tabSel] at hi
    · intro c hc
      have : c = "a" := by simpa [tabSel] using hc
      subst this
      decide
  simp [hm] at this

/-- C6 (amended): simple-selector matching is equivalent to: the selector's
tag name is absent or equal to the element's tag name, its id is absent or
equal to the element's `id` attribute, and every selector class occurs among
the element's class tokens — where the class attribute is split on the space
character (U+0020) only, not on arbitrary whitespace. -/
theorem matches_simple_selector_characterization (elem : ElementData)
    (sel : SimpleSelector) :
    matches_simple_selector elem sel = true ↔
      (∀ t ∈ sel.tag_name, elem.tag_name = t) ∧
      (∀ i ∈ sel.id, elem.id = some i) ∧
      (∀ c ∈ sel.classList, c ∈ elem.classes) := by
  have step : matches_simple_selector elem sel = true ↔
      (sel.tag_name.any (fun name => elem.tag_name != name) = false) ∧
      (sel.id.any (fun i => elem.id != some i) = false) ∧
      (sel.classList.any (fun c => !(elem.classes.contains c)) = false) := by
    unfold matches_simple_selector
    split_ifs with h1 h2 h3 <;> simp_all
  rw [step, option_any_ne_eq_false, option_any_ne_some_eq_false,
    list_any_not_contains_eq_false]

/-- C5 (counterexample): the nested-box chain fails for a `Dimensions` with a
negative margin edge: its margin box does not contain its border box. -/
theorem box_nesting_counterexample :
    ¬ (negMarginDims.margin_box.containsRect negMarginDims.border_box ∧
       negMarginDims.border_box.containsRect negMarginDims.padding_box ∧
       negMarginDims.padding_box.containsRect negMarginDims.content_box) := by
  simp only [negMarginDims, Dimensions.margin_box, Dimensions.border_box,
    Dimensions.padding_box, Dimensions.content_box, Rect.expanded_by,
    Rect.containsRect, EdgeSizes.zero]
  norm_num

/-- C5 (amended): when the padding, border and margin edges are all
non-negative, the four derived boxes are nested
(margin ⊇ border ⊇ padding ⊇ content); and — for arbitrary edges — two
consecutive boxes in the chain are equal exactly when the corresponding
`EdgeSizes` are all zero. -/
theorem box_nesting (d : Dimensions) :
    (d.padding.Nonneg → d.border.Nonneg → d.margin.Nonneg →
      (d.margin_box.containsRect d.border_box ∧
       d.border_box.containsRect d.padding_box ∧
       d.padding_box.containsRect d.content_box)) ∧
    (d.margin_box = d.border_box ↔ d.margin = EdgeSizes.zero) ∧
    (d.border_box = d.padding_box ↔ d.border = EdgeSizes.zero) ∧
    (d.padding_box = d.content_box ↔ d.padding = EdgeSizes.zero) := by
  simp only [Dimensions.margin_box, Dimensions.border_box,
    Dimensions.padding_box, Dimensions.content_box, Rect.expanded_by,
    Rect.containsRect, rect_eq_iff, edgeSizes_eq_zero_iff]
  refine ⟨?_, ?_, ?_, ?_⟩
  · rintro ⟨hp1, hp2, hp3, hp4⟩ ⟨hb1, hb2, hb3, hb4⟩ ⟨hm1, hm2, hm3, hm4⟩
    exact ⟨⟨by linarith, by linarith, by linarith, by linarith⟩,
           ⟨by linarith, by linarith, by linarith, by linarith⟩,
           ⟨by linarith, by linarith, by linarith, by linarith⟩⟩
  · constructor
    · rintro ⟨e1, e2, e3, e4⟩
      exact ⟨by linarith, by linarith, by linarith, by linarith⟩
    · rintro ⟨z1, z2, z3, z4⟩
      exact ⟨by linarith, by linarith, by linarith, by linarith⟩
  · constructor
    · rintro ⟨e1, e2, e3, e4⟩
      exact ⟨by linarith, by linarith, by linarith, by linarith⟩
    · rintro ⟨z1, z2, z3, z4⟩
      exact ⟨by linarith, by linarith, by linarith, by linarith⟩
  · constructor
    · rintro ⟨e1, e2, e3, e4⟩
      exact ⟨by linarith, by linarith, by linarith, by linarith⟩
    · rintro ⟨z1, z2, z3, z4⟩
      exact ⟨by linarith, by linarith, by linarith, by linarith⟩

/-- C5 (witness): the amended nesting theorem applied to a concrete
`Dimensions` with positive edges, and its equality criterion applied to one
with a negative margin edge. -/
theorem box_nesting_witness :
    posDims.margin_box.containsRect posDims.border_box ∧
    ¬ (posDims.padding_box = posDims.content_box) ∧
    ¬ (negMarginDims.margin_box = negMarginDims.border_box) := by
  have h := box_nesting posDims
  have hneg := box_nesting negMarginDims
  refine ⟨(h.1 (by decide) (by decide) (by decide)).1, ?_, ?_⟩
  · rw [h.2.2.2]
    decide
  · rw [hneg.2.1]
    decide

/-- C2: for an element matching rule R1 with specificity (0,1,0) and rule R2
with specificity (1,0,0), `specified_values` — which stable-sorts the matched
rules ascending by specificity and applies declarations in that order, later
writes overwriting earlier ones — resolves any property R2 sets to R2's value
regardless of the order of R1 and R2 in the stylesheet. -/
theorem cascade_higher_specificity_wins (elem : ElementData) (r1 r2 : Rule)
    (p : String) (v2 : Value)
    (h1 : match_rule elem r1 = some ((0, 1, 0), r1))
    (h2 : match_rule elem r2 = some ((1, 0, 0), r2))
    (hv : PropertyMap.get (applyDeclarations [] r2.declarations) p = some v2) :
    PropertyMap.get (specified_values elem ⟨[r1, r2]⟩) p = some v2 ∧
    PropertyMap.get (specified_values elem ⟨[r2, r1]⟩) p = some v2 := by
  have hm1 : matching_rules elem ⟨[r1, r2]⟩ =
      [((0, 1, 0), r1), ((1, 0, 0), r2)] := by
    simp [matching_rules, h1, h2]
  have hm2 : matching_rules elem ⟨[r2, r1]⟩ =
      [((1, 0, 0), r2), ((0, 1, 0), r1)] := by
    simp [matching_rules, h1, h2]
  have hs1 : sortBySpec [((0, 1, 0), r1), ((1, 0, 0), r2)] =
      [((0, 1, 0), r1), ((1, 0, 0), r2)] := by
    simp [sortBySpec, insertBySpec, specLt, specCmp]
    rfl
  have hs2 : sortBySpec [((1, 0, 0), r2), ((0, 1, 0), r1)] =
      [((0, 1, 0), r1), ((1, 0, 0), r2)] := by
    simp [sortBySpec, insertBySpec, specLt, specCmp]
    rfl
  constructor
  · unfold specified_values
    rw [hm1, hs1]
    simp only [List.foldl_cons, List.foldl_nil]
    rw [applyDeclarations_eq_append r2.declarations]
    unfold PropertyMap.get at hv ⊢
    rw [pm_lookup_append, hv]
    rfl
  · unfold specified_values
    rw [hm2, hs2]
    simp only [List.foldl_cons, List.foldl_nil]
    rw [applyDeclarations_eq_append r2.declarations]
    unfold PropertyMap.get at hv ⊢
    rw [pm_lookup_append, hv]
    rfl

/-- C2 (witness): a `div` with class `c` and id `i` facing the rules `.c`
(background red) and `#i` (background green) resolves `background` to green
in either stylesheet order. -/
theorem cascade_higher_specificity_wins_witness :
    PropertyMap.get (specified_values cascadeElem ⟨[classRule, idRule]⟩)
      "background" = some (Value.colorValue ⟨0, 255, 0, 255⟩) ∧
    PropertyMap.get (specified_values cascadeElem ⟨[idRule, classRule]⟩)
      "background" = some (Value.colorValue ⟨0, 255, 0, 255⟩) :=
  cascade_higher_specificity_wins cascadeElem classRule idRule "background"
    (Value.colorValue ⟨0, 255, 0, 255⟩) (by decide) (by decide) (by decide)

/-- C9: when a rule's selectors are sorted descending by specificity (the
stylesheet parser's invariant), `match_rule` returns `none` exactly when no
selector matches, and otherwise returns the rule paired with the greatest
specificity among its matching selectors. -/
theorem match_rule_first_is_greatest (elem : ElementData) (rule : Rule)
    (hSort : List.Pairwise
      (fun a b => specLe b.specificity a.specificity = true) rule.selectors) :
    (match_rule elem rule = none ↔
      ∀ sel ∈ rule.selectors, selMatches elem sel = false) ∧
    (∀ spec r, match_rule elem rule = some (spec, r) →
      r = rule ∧
      (∃ sel ∈ rule.selectors, selMatches elem sel = true ∧
        sel.specificity = spec) ∧
      (∀ sel ∈ rule.selectors, selMatches elem sel = true →
        specLe sel.specificity spec = true)) := by
  constructor
  · unfold match_rule
    rw [Option.map_eq_none', List.find?_eq_none]
    constructor
    · intro h sel hs
      have := h sel hs
      simpa using this
    · intro h sel hs
      simp [h sel hs]
  · intro spec r h
    unfold match_rule at h
    cases hf : rule.selectors.find? (fun sel => selMatches elem sel) with
    | none => rw [hf] at h; simp at h
    | some sel =>
      rw [hf] at h
      simp at h
      obtain ⟨hspec, hr⟩ := h
      refine ⟨hr.symm, ?_, ?_⟩
      · exact ⟨sel, List.mem_of_find?_eq_some hf,
          by simpa using List.find?_some hf, hspec⟩
      · subst hspec
        clear hr
        revert hSort hf
        induction rule.selectors with
        | nil => intro hSort hf; simp at hf
        | cons s ss ih =>
          intro hSort hf
          rw [List.find?] at hf
          cases hm : selMatches elem s with
          | true =>
            rw [hm] at hf
            simp at hf
            subst hf
            intro t ht hmt
            rcases List.mem_cons.mp ht with rfl | hts
            · exact specLe_refl _
            · exact (List.pairwise_cons.mp hSort).1 t hts
          | false =>
            rw [hm] at hf
            simp only [] at hf
            intro t ht hmt
            rcases List.mem_cons.mp ht with rfl | hts
            · rw [hmt] at hm; cases hm
            · exact ih (List.pairwise_cons.mp hSort).2 hf t hts hmt

/-- C9 (witness): the rule with selectors `#x`, `p` (descending specificity)
matched against a plain `p` element: the match records specificity (0,0,1),
which is greatest among the matching selectors. -/
theorem match_rule_first_is_greatest_witness :
    sortedRule = sortedRule ∧
    (∃ sel ∈ sortedRule.selectors, selMatches tagOnlyElem sel = true ∧
      sel.specificity = (0, 0, 1)) ∧
    (∀ sel ∈ sortedRule.selectors, selMatches tagOnlyElem sel = true →
      specLe sel.specificity (0, 0, 1) = true) :=
  (match_rule_first_is_greatest tagOnlyElem sortedRule (by decide)).2
    (0, 0, 1) sortedRule (by decide)

/-- C3: laying out an `AnonymousBlock` box always aborts: the dispatch in
`layout` routes it to `layout_block`, whose first step
`calculate_block_width` calls `get_style_node`, which panics for an
anonymous block (modelled by `none`) — instead of completing block layout as
the specification describes. -/
theorem layout_anonymous_block_panics (d : Dimensions) (cs : List LayoutBox)
    (cb : Dimensions) : layout (.mk d .anonymousBlock cs) cb = none := by
  rw [layout]
  rfl

/-- C4: `layout_block_children` lays the children out in order against this
box's own dimensions, adding each child's margin-box height to the content
height — so the final content height is the initial height plus the sum of
the children's margin-box heights while `x`, `y` and `width` stay unchanged —
and for a parent with two block children of explicit heights 40 and 60 and
zero margins, borders and padding, the laid-out children sit at
`content.y = 0` and `content.y = 40` (the second exactly 40 below the first)
and the parent's auto height is 100. -/
theorem layout_block_children_stacking :
    (∀ (cs cs' : List LayoutBox) (d d' : Dimensions),
      layout_block_children cs d = some (cs', d') →
      d'.content.height = d.content.height +
        (cs'.map (fun c => c.dimensions.margin_box.height)).sum ∧
      d'.content.x = d.content.x ∧ d'.content.y = d.content.y ∧
      d'.content.width = d.content.width) ∧
    (layout stackParent cb300).map (fun b =>
      (b.children.map (fun c => c.dimensions.content.y),
       b.dimensions.content.height)) = some ([0, 40], 100) := by
  constructor
  · intro cs
    induction cs with
    | nil =>
      intro cs' d d' h
      rw [layout_block_children] at h
      simp at h
      obtain ⟨h1, h2⟩ := h
      subst h1; subst h2
      simp
    | cons c cs ih =>
      intro cs' d d' h
      rw [layout_block_children] at h
      cases hl : layout c d with
      | none => rw [hl] at h; simp at h
      | some c' =>
        rw [hl] at h
        simp only [] at h
        cases hrec : layout_block_children cs
          { d with content := { d.content with
              height := d.content.height + c'.dimensions.margin_box.height } } with
        | none => rw [hrec] at h; simp at h
        | some p =>
          rw [hrec] at h
          simp at h
          obtain ⟨h1, h2⟩ := h
          subst h1; subst h2
          have := ih p.1 _ p.2 hrec
          simp at this
          obtain ⟨e1, e2, e3, e4⟩ := this
          refine ⟨?_, by simpa using e2, by simpa using e3, by simpa using e4⟩
          simp [e1]
          ring
  · simp [layout, layout_block_children, stackParent, child40, child60,
      heightStyle, emptyStyle, LayoutBox.new, calculate_block_width,
      calculate_block_position, calculate_block_height, widthValue,
      marginLeftValue, marginRightValue, borderLeftValue, borderRightValue,
      paddingLeftValue, paddingRightValue, horizontalTotal, widthUnderflow,
      StyledNode.value, StyledNode.lookup, StyledNode.specified,
      PropertyMap.get, List.lookup, Dimensions.default, cb300, autoVal,
      zeroLength, Value.to_px, Dimensions.margin_box, Dimensions.border_box,
      Dimensions.padding_box, Dimensions.content_box, Rect.expanded_by,
      EdgeSizes.zero, get_style_node, LayoutBox.dimensions, LayoutBox.children]
    norm_num

/-- C1: the auto-resolution case analysis of `calculate_block_width` — with
`underflow` the containing width minus the pixel total of the seven
horizontal values: (1) none of width and the margins `auto` means
margin-right grows by the underflow; (2) only one margin `auto` means that
margin becomes the underflow; (3) width `auto` means auto margins reset to 0
and width becomes the underflow when non-negative, otherwise width becomes 0
and margin-right absorbs the negative underflow; (4) width fixed and both
margins `auto` means each margin becomes half the underflow — and for
containing width 300, width 200 and both margins `auto`, both resolved
margins equal 50. -/
theorem calculate_block_width_cases (style : StyledNode) (cb d : Dimensions) :
    ((widthValue style ≠ autoVal → marginLeftValue style ≠ autoVal →
      marginRightValue style ≠ autoVal →
      (calculate_block_width style cb d).margin.right =
        (marginRightValue style).to_px + widthUnderflow style cb ∧
      (calculate_block_width style cb d).margin.left =
        (marginLeftValue style).to_px ∧
      (calculate_block_width style cb d).content.width =
        (widthValue style).to_px) ∧
    (widthValue style ≠ autoVal → marginLeftValue style ≠ autoVal →
      marginRightValue style = autoVal →
      (calculate_block_width style cb d).margin.right =
        widthUnderflow style cb ∧
      (calculate_block_width style cb d).margin.left =
        (marginLeftValue style).to_px ∧
      (calculate_block_width style cb d).content.width =
        (widthValue style).to_px) ∧
    (widthValue style ≠ autoVal → marginLeftValue style = autoVal →
      marginRightValue style ≠ autoVal →
      (calculate_block_width style cb d).margin.left =
        widthUnderflow style cb ∧
      (calculate_block_width style cb d).margin.right =
        (marginRightValue style).to_px ∧
      (calculate_block_width style cb d).content.width =
        (widthValue style).to_px) ∧
    (widthValue style ≠ autoVal → marginLeftValue style = autoVal →
      marginRightValue style = autoVal →
      (calculate_block_width style cb d).margin.left =
        widthUnderflow style cb / 2 ∧
      (calculate_block_width style cb d).margin.right =
        widthUnderflow style cb / 2 ∧
      (calculate_block_width style cb d).content.width =
        (widthValue style).to_px) ∧
    (widthValue style = autoVal →
      (marginLeftValue style = autoVal →
        (calculate_block_width style cb d).margin.left = 0) ∧
      (0 ≤ widthUnderflow style cb →
        (calculate_block_width style cb d).content.width =
          widthUnderflow style cb ∧
        (marginRightValue style = autoVal →
          (calculate_block_width style cb d).margin.right = 0)) ∧
      (widthUnderflow style cb < 0 →
        (calculate_block_width style cb d).content.width = 0 ∧
        (calculate_block_width style cb d).margin.right =
          (if marginRightValue style = autoVal then 0
           else (marginRightValue style).to_px) + widthUnderflow style cb))) ∧
    ((calculate_block_width centerStyle cb300 Dimensions.default).margin.left
       = 50 ∧
     (calculate_block_width centerStyle cb300 Dimensions.default).margin.right
       = 50) := by
  constructor
  · refine ⟨?_, ?_, ?_, ?_, ?_⟩
    · intro h1 h2 h3
      unfold calculate_block_width
      dsimp only
      split_ifs <;> simp_all [Value.to_px, autoVal, zeroLength]
    · intro h1 h2 h3
      unfold calculate_block_width
      dsimp only
      split_ifs <;> simp_all [Value.to_px, autoVal, zeroLength]
    · intro h1 h2 h3
      unfold calculate_block_width
      dsimp only
      split_ifs <;> simp_all [Value.to_px, autoVal, zeroLength]
    · intro h1 h2 h3
      unfold calculate_block_width
      dsimp only
      split_ifs <;> simp_all [Value.to_px, autoVal, zeroLength]
    · intro h1
      unfold calculate_block_width
      dsimp only
      split_ifs <;> simp_all [Value.to_px, autoVal, zeroLength]
  · simp [calculate_block_width, centerStyle, cb300, Dimensions.default,
      widthValue, marginLeftValue, marginRightValue, borderLeftValue,
      borderRightValue, paddingLeftValue, paddingRightValue, horizontalTotal,
      widthUnderflow, StyledNode.value, StyledNode.lookup,
      StyledNode.specified, PropertyMap.get, List.lookup, autoVal, zeroLength,
      Value.to_px, EdgeSizes.zero]
    norm_num

/-- C1 (witness): the centring case of the width algorithm applied to the
concrete `width: 200px` box inside a 300-wide containing block. -/
theorem calculate_block_width_cases_witness :
    (calculate_block_width centerStyle cb300 Dimensions.default).margin.left =
      widthUnderflow centerStyle cb300 / 2 ∧
    (calculate_block_width centerStyle cb300 Dimensions.default).margin.right =
      widthUnderflow centerStyle cb300 / 2 ∧
    (calculate_block_width centerStyle cb300 Dimensions.default).content.width =
      (widthValue centerStyle).to_px :=
  (calculate_block_width_cases centerStyle cb300 Dimensions.default).1.2.2.2.1
    (by decide) (by decide) (by decide)

/-- C10: after `calculate_block_width`, the horizontal box-model sum
margin-left + border-left + padding-left + width + padding-right +
border-right + margin-right equals the containing content width exactly, in
every branch of the case analysis; and when the `width` property is `auto`
(or absent), the resulting content width is never negative. -/
theorem calculate_block_width_fills_containing (style : StyledNode)
    (cb d : Dimensions) :
    (calculate_block_width style cb d).margin.left +
      (calculate_block_width style cb d).border.left +
      (calculate_block_width style cb d).padding.left +
      (calculate_block_width style cb d).content.width +
      (calculate_block_width style cb d).padding.right +
      (calculate_block_width style cb d).border.right +
      (calculate_block_width style cb d).margin.right = cb.content.width ∧
    (widthValue style = autoVal →
      0 ≤ (calculate_block_width style cb d).content.width) := by
  constructor
  · unfold calculate_block_width
    dsimp only
    split_ifs with h1 h2 h3 h4 h5 h6 h7 <;>
      simp_all [widthUnderflow, horizontalTotal, Value.to_px, autoVal,
        zeroLength] <;>
      linarith
  · intro hw
    unfold calculate_block_width
    dsimp only
    split_ifs with h1 h2 h3 h4 h5 <;>
      simp_all [widthUnderflow, horizontalTotal, Value.to_px, autoVal,
        zeroLength]

/-- C10 (witness): the auto-width branch applied to a box with no style
properties (so `width` defaults to `auto`). -/
theorem calculate_block_width_fills_containing_witness :
    0 ≤ (calculate_block_width emptyStyle cb300 Dimensions.default).content.width :=
  (calculate_block_width_fills_containing emptyStyle cb300
    Dimensions.default).2 (by decide)

/-- C7: `paint_item` on a `SolidColor` command never writes out of bounds —
the four clipped edges (clamped to the canvas bounds, truncated toward zero)
stay within the canvas, the canvas shape is preserved, every pixel of the
clipped rectangle is overwritten with the command's colour, and every pixel
outside it is unchanged (so a fully out-of-bounds or degenerate rectangle
paints nothing). -/
theorem paint_item_clips (c : Canvas) (color : Color) (rect : Rect)
    (hlen : c.pixels.length = c.width * c.height) :
    clipX0 c rect ≤ c.width ∧ clipX1 c rect ≤ c.width ∧
    clipY0 c rect ≤ c.height ∧ clipY1 c rect ≤ c.height ∧
    (c.paint_item (.solidColor color rect)).width = c.width ∧
    (c.paint_item (.solidColor color rect)).height = c.height ∧
    (c.paint_item (.solidColor color rect)).pixels.length =
      c.pixels.length ∧
    (∀ x y : ℕ, x < c.width → y < c.height →
      ((c.paint_item (.solidColor color rect)).pixels)[x + y * c.width]? =
        if clipX0 c rect ≤ x ∧ x < clipX1 c rect ∧
           clipY0 c rect ≤ y ∧ y < clipY1 c rect
        then some color
        else c.pixels[x + y * c.width]?) := by
  refine ⟨clipX0_le c rect, clipX1_le c rect, clipY0_le c rect,
    clipY1_le c rect, ?_, ?_, ?_, ?_⟩
  · rw [paint_item_eq, paintRows_width]
  · rw [paint_item_eq, paintRows_height]
  · rw [paint_item_eq, paintRows_length]
  · intro x y hx hy
    have hi : x + y * c.width < c.pixels.length := by
      rw [hlen]
      calc x + y * c.width < c.width + y * c.width := by omega
        _ = (y + 1) * c.width := by ring
        _ ≤ c.height * c.width := Nat.mul_le_mul_right _ (by omega)
        _ = c.width * c.height := Nat.mul_comm _ _
    rw [paint_item_eq]
    have hx1w := clipX1_le c rect
    have hx0w := clipX0_le c rect
    by_cases hreg : clipX0 c rect ≤ x ∧ x < clipX1 c rect ∧
        clipY0 c rect ≤ y ∧ y < clipY1 c rect
    · rw [if_pos hreg]
      obtain ⟨h1, h2, h3, h4⟩ := hreg
      exact paintRows_getElem_hit color (clipX0 c rect)
        (clipX1 c rect - clipX0 c rect) c.width
        (clipY1 c rect - clipY0 c rect) (clipY0 c rect) c rfl (by omega)
        x y h1 (by omega) h3 (by omega) hi
    · rw [if_neg hreg]
      apply paintRows_getElem_miss color (clipX0 c rect)
        (clipX1 c rect - clipX0 c rect) c.width
        (clipY1 c rect - clipY0 c rect) (clipY0 c rect) c rfl
      intro yy x' hy1 hy2 hx1 hx2 heq
      have hx'w : x' < c.width := by omega
      obtain ⟨he1, he2⟩ := pixel_index_inj hx hx'w heq
      apply hreg
      refine ⟨by omega, by omega, by omega, by omega⟩

/-- C7 (witness): the clipping theorem applied to a fresh 2 by 2 canvas and
a rectangle that spills over every canvas edge. -/
theorem paint_item_clips_witness :
    clipX1 (Canvas.new 2 2) overRect ≤ (Canvas.new 2 2).width :=
  (paint_item_clips (Canvas.new 2 2) ⟨0, 0, 0, 255⟩ overRect
    (by simp [Canvas.new])).2.1

/-- C8: `build_display_list` emits a box's own commands — background first,
then borders — before the concatenated display lists of its children in
order; and since `paint` executes commands in list order with opaque
overwrite, a parent with a red background whose child has a blue background
over the same border box leaves that pixel blue. -/
theorem display_list_parent_before_children (d : Dimensions) (bt : BoxType)
    (cs : List LayoutBox) :
    build_display_list (.mk d bt cs) =
      (render_background [] (.mk d bt cs) ++
        render_borders [] (.mk d bt cs)) ++
      (cs.map build_display_list).flatten ∧
    (paint redParent ⟨0, 0, 2, 2⟩).pixels[0]? = some blueColor := by
  constructor
  · rw [build_display_list, render_layout_box,
      (render_append_aux (sizeOf cs)).2 cs le_rfl, render_children_flatten,
      render_borders_append, render_background_append]
  · have hdl : build_display_list redParent =
        [DisplayCommand.solidColor redColor paintDims.border_box,
         DisplayCommand.solidColor blueColor paintDims.border_box] := by
      simp [build_display_list, render_layout_box, render_children, redParent,
        blueChild, render_background, render_borders, get_color,
        LayoutBox.box_type, LayoutBox.children, LayoutBox.dimensions,
        StyledNode.value, StyledNode.specified, PropertyMap.get, List.lookup]
    have hbb : paintDims.border_box = ⟨0, 0, 2, 2⟩ := by
      simp [paintDims, Dimensions.border_box, Dimensions.padding_box,
        Dimensions.content_box, Rect.expanded_by, Dimensions.default,
        EdgeSizes.zero]
    have hq2 : qToUsize (2 : ℚ) = 2 := by
      norm_num [qToUsize, Rat.floor]
      rfl
    have hc : Canvas.new 2 2 =
        ⟨[whiteColor, whiteColor, whiteColor, whiteColor], 2, 2⟩ := by
      simp [Canvas.new, List.replicate]
    unfold paint
    rw [hdl, hbb, hq2, hc]
    norm_num [Canvas.paint_item, clipX0, clipY0, clipX1, clipY1, clampQ,
      qToUsize, Rat.floor, Canvas.paintRow, Canvas.setPixel, List.range',
      whiteColor, redColor, blueColor, Int.toNat_ofNat, Nat.cast_ofNat]

/-- C4 (witness): the accumulation law applied to the concrete child of
height 40 inside `cb300`. -/
theorem layout_block_children_stacking_witness :
    cb300After.content.height = cb300.content.height +
      ([laidChild40].map (fun c => c.dimensions.margin_box.height)).sum :=
  (layout_block_children_stacking.1 [child40] [laidChild40] cb300 cb300After
    (by
      simp [layout, layout_block_children, child40, heightStyle,
        LayoutBox.new, calculate_block_width, calculate_block_position,
        calculate_block_height, widthValue, marginLeftValue, marginRightValue,
        borderLeftValue, borderRightValue, paddingLeftValue,
        paddingRightValue, horizontalTotal, widthUnderflow, StyledNode.value,
        StyledNode.lookup, StyledNode.specified, PropertyMap.get, List.lookup,
        Dimensions.default, cb300, cb300After, laidChild40, autoVal,
        zeroLength, Value.to_px, Dimensions.margin_box, Dimensions.border_box,
        Dimensions.padding_box, Dimensions.content_box, Rect.expanded_by,
        EdgeSizes.zero, get_style_node, LayoutBox.dimensions,
        LayoutBox.children])).1

end RenderKit
